import Mathlib

/-!
# Verification of the HARP byte-stream parser

Shallow embedding of `harp_parser.py` (classes `PayloadLookup` and
`HarpParser`).  The input file's bytes are modelled as a `List Nat` (each
entry a byte value); Python runtime errors that the reference code can
raise are modelled with an explicit error type carried in `Except`:

* `indexError`  — Python `IndexError` from `data[i]` / `message[i]`;
* `typeError`   — Python `TypeError` from `x in None` when the
  message-type filter helper returned `None`;
* `divByZero`   — Python `ZeroDivisionError` from the `// (payload_type & 0x0F)`
  element-count division;
* `keyError k`  — Python `KeyError` from the `DATA_CHARS[k]` dictionary
  lookup (the spec's `UnknownPayloadType`);
* `structError` — Python `struct.error` when the computed format size does
  not match the payload length (the spec's `MalformedPayload`).

Python floats are modelled as rationals (`ℚ`); IEEE-754 float32 payload
elements are kept as their raw little-endian bit pattern, since no claim
depends on their numeric interpretation.
-/

namespace Harp

inductive PyError where
  | indexError
  | typeError
  | divByZero
  | keyError (key : Nat)
  | structError
deriving DecidableEq, Repr

/-- Python `xs[i]` on a list: the value, or an `IndexError`. -/
def pyIndex {α : Type} (xs : List α) (i : Nat) : Except PyError α :=
  match xs[i]? with
  | some x => .ok x
  | none => .error .indexError

/-- One entry of `PayloadLookup.DATA_CHARS`: the meaning of a `struct`
format character — element byte width, signedness, float-vs-integer. -/
structure DataChar where
  width : Nat
  signed : Bool
  isFloat : Bool
deriving DecidableEq, Repr

/-- `PayloadLookup.DATA_CHARS`, with each format character replaced by the
primitive layout it denotes (`'B'` ↦ unsigned 1, `'b'` ↦ signed 1, …,
`'f'` ↦ float 4). -/
def DATA_CHARS : List (Nat × DataChar) :=
  [ (0x01, ⟨1, false, false⟩),
    (0x81, ⟨1, true,  false⟩),
    (0x02, ⟨2, false, false⟩),
    (0x82, ⟨2, true,  false⟩),
    (0x04, ⟨4, false, false⟩),
    (0x84, ⟨4, true,  false⟩),
    (0x08, ⟨8, false, false⟩),
    (0x88, ⟨8, true,  false⟩),
    (0x44, ⟨4, false, true⟩) ]

/-- The key expression of `PayloadLookup.__get_data_char`:
`(payload & 0xC0) | (payload & 0x0F)`. -/
def maskedKey (payloadType : Nat) : Nat :=
  (payloadType &&& 0xC0) ||| (payloadType &&& 0x0F)

/-- `PayloadLookup.__get_data_char`: dictionary lookup of the masked key. -/
def getDataChar (payloadType : Nat) : Option DataChar :=
  DATA_CHARS.lookup (maskedKey payloadType)

/-- `HarpParser.HAS_TIMESTAMP`. -/
def HAS_TIMESTAMP : Nat := 0x10

/-- `HarpParser.SIZE_MASK`. -/
def SIZE_MASK : Nat := 0x0F

/-- `HarpParser.MICROSECOND_TO_SECOND = 32e-6`, as an exact rational. -/
def MICROSECOND_TO_SECOND : ℚ := 32 / 1000000

/-- Little-endian byte-list decoding, as `struct.unpack` with `<` performs
it: the first byte is least significant. -/
def leDecode (bs : List Nat) : Nat :=
  bs.foldr (fun b acc => b + 256 * acc) 0

/-- Two's-complement reinterpretation of a `w`-byte unsigned value, as
`struct` does for the signed format characters. -/
def toSigned (w : Nat) (n : Nat) : Int :=
  if n < 2 ^ (8 * w - 1) then (n : Int) else (n : Int) - 2 ^ (8 * w)

/-- A value produced by `struct.unpack`: a Python int, or a float32 kept
as its raw 32-bit little-endian pattern. -/
inductive Value where
  | int (z : Int)
  | float32 (bits : Nat)
deriving DecidableEq, Repr

/-- Decode one element's bytes according to a format character. -/
def unpackValue (c : DataChar) (bs : List Nat) : Value :=
  if c.isFloat then .float32 (leDecode bs)
  else if c.signed then .int (toSigned c.width (leDecode bs))
  else .int (leDecode bs)

/-- `struct.unpack(format, payload)` for the format strings built by
`PayloadLookup.get_payload_string`: `'<IH' + char*repeats` when the
timestamp flag is set, `'<' + char*repeats` otherwise.  `struct.unpack`
requires the format's byte size to equal the buffer length exactly and
raises `struct.error` otherwise. -/
def structUnpack (hasTs : Bool) (c : DataChar) (repeats : Nat) (payload : List Nat) :
    Except PyError (List Value) :=
  let tsBytes := if hasTs then 6 else 0
  if payload.length = tsBytes + c.width * repeats then
    .ok ((if hasTs then
            [Value.int (leDecode (payload.take 4)),
             Value.int (leDecode ((payload.drop 4).take 2))]
          else []) ++
         (List.range repeats).map (fun i =>
            unpackValue c ((payload.drop (tsBytes + c.width * i)).take c.width)))
  else .error .structError

/-- A Python float: int values embed, float32 bit patterns stay abstract
(never hit by the reference on the timestamp path, whose fields are
`'I'`/`'H'` ints). -/
def valueToRat : Value → ℚ
  | .int z => (z : ℚ)
  | .float32 b => (b : ℚ)

/-- One row of `HarpParser.to_list`'s output,
`[message_type, message_address, timestamp] + elements`, with the NaN
timestamp sentinel of timestamp-less frames modelled as `none`. -/
structure Record where
  message_type : Nat
  address : Nat
  timestamp : Option ℚ
  elements : List Value
deriving DecidableEq, Repr

/-- `HarpParser.__unpack_message_types_to_process`: builds `[1?, 2?, 3]`
but only returns it inside the `processEvent` branch; with
`processEvent = False` the Python function falls off the end and returns
`None`. -/
def unpackMessageTypesToProcess (processRead processWrite processEvent : Bool) :
    Option (List Nat) :=
  let types0 : List Nat := []
  let types1 := if processRead then types0 ++ [1] else types0
  let types2 := if processWrite then types1 ++ [2] else types1
  if processEvent then some (types2 ++ [3]) else none

/-- The body of `HarpParser.to_list`'s per-frame work, lines 146–176:
slice already taken, decode one `message`.  Returns `some record` for a
retained frame, `none` for a filtered-out frame, or the Python error the
reference would raise. -/
def processFrame (message : List Nat) (typesToProcess : Option (List Nat)) :
    Except PyError (Option Record) :=
  match pyIndex message 0 with
  | .error e => .error e
  | .ok message_type =>
    match typesToProcess with
    | none => .error .typeError
    | some types =>
      if message_type ∈ types then
        match pyIndex message 2 with
        | .error e => .error e
        | .ok message_address =>
          match pyIndex message 4 with
          | .error e => .error e
          | .ok payload_type =>
            let payload := message.drop 5
            let hasTs : Bool := payload_type &&& HAS_TIMESTAMP != 0
            if payload_type &&& SIZE_MASK = 0 then .error .divByZero
            else
              let payload_length : Int :=
                Int.fdiv ((payload.length : Int) - (if hasTs then 6 else 0))
                  ((payload_type &&& SIZE_MASK : Nat) : Int)
              match getDataChar payload_type with
              | none => .error (.keyError (maskedKey payload_type))
              | some c =>
                match structUnpack hasTs c payload_length.toNat payload with
                | .error e => .error e
                | .ok unpacked =>
                  if hasTs then
                    match pyIndex unpacked 0 with
                    | .error e => .error e
                    | .ok v0 =>
                      match pyIndex unpacked 1 with
                      | .error e => .error e
                      | .ok v1 =>
                        .ok (some ⟨message_type, message_address,
                              some (valueToRat v0 + valueToRat v1 * MICROSECOND_TO_SECOND),
                              unpacked.drop 2⟩)
                  else
                    .ok (some ⟨message_type, message_address, none, unpacked⟩)
      else
        .ok none

/-- The scan loop of `HarpParser.to_list`, lines 140–176: while
`next_message_start < EOF`, read the length byte, slice the frame
`data[message_start : message_end]`, process it, advance the cursor to
`message_end + 1`. -/
def toListLoop (data : List Nat) (types : Option (List Nat)) (next_start : Nat) :
    Except PyError (List Record) :=
  if h : next_start < data.length then
    match pyIndex data (next_start + 1) with
    | .error e => .error e
    | .ok lenByte =>
      let message_end := next_start + lenByte + 1
      let message := (data.drop next_start).take (message_end - next_start)
      match processFrame message types with
      | .error e => .error e
      | .ok none => toListLoop data types (message_end + 1)
      | .ok (some r) =>
        match toListLoop data types (message_end + 1) with
        | .error e => .error e
        | .ok rest => .ok (r :: rest)
  else .ok []
termination_by data.length - next_start
decreasing_by all_goals omega

/-- `HarpParser.to_list`, with the file's bytes passed directly instead of
read from a path. -/
def to_list (data : List Nat) (processRead processWrite processEvent : Bool) :
    Except PyError (List Record) :=
  toListLoop data (unpackMessageTypesToProcess processRead processWrite processEvent) 0

end Harp

namespace Harp

/-! ## Loop unfolding lemmas -/

theorem toListLoop_stop (data : List Nat) (types : Option (List Nat)) (ns : Nat)
    (h : data.length ≤ ns) : toListLoop data types ns = .ok [] := by
  rw [toListLoop]
  simp [Nat.not_lt.mpr h]

theorem toListLoop_step (data : List Nat) (types : Option (List Nat)) (ns L : Nat)
    (h : ns < data.length) (hL : data[ns + 1]? = some L) :
    toListLoop data types ns =
      match processFrame ((data.drop ns).take (ns + L + 1 - ns)) types with
      | .error e => .error e
      | .ok none => toListLoop data types (ns + L + 1 + 1)
      | .ok (some r) =>
        match toListLoop data types (ns + L + 1 + 1) with
        | .error e => .error e
        | .ok rest => .ok (r :: rest) := by
  rw [toListLoop]
  rw [dif_pos h]
  simp only [pyIndex, hL]

end Harp

namespace Harp

/-! ## C8: the category-filter helper -/

/-- Claim C8: the category-filter helper returns a usable filter only when
the event category is requested — with `processEvent = true` it returns
the list containing `1` if `processRead`, `2` if `processWrite`, and `3`;
with `processEvent = false` it returns no list at all, regardless of the
other two flags. -/
theorem filter_requires_event (processRead processWrite processEvent : Bool) :
    (processEvent = true →
      unpackMessageTypesToProcess processRead processWrite processEvent =
        some ((if processRead then [1] else []) ++
              (if processWrite then [2] else []) ++ [3])) ∧
    (processEvent = false →
      unpackMessageTypesToProcess processRead processWrite processEvent = none) := by
  cases processRead <;> cases processWrite <;> cases processEvent <;>
    simp [unpackMessageTypesToProcess]

/-- Witness for C8 at concrete flag settings. -/
theorem filter_requires_event_witness :
    unpackMessageTypesToProcess true false true = some ([1] ++ [] ++ [3]) ∧
    unpackMessageTypesToProcess true true false = none :=
  ⟨(filter_requires_event true false true).1 rfl,
   (filter_requires_event true true false).2 rfl⟩

/-! ## C2: the type table -/

/-- The table as the specification documents it: unsigned (class bits
`00`) at widths 1, 2, 4, 8; signed (class bits `10`, i.e. `0x80`) at
widths 1, 2, 4, 8; float (class bits `01`, i.e. `0x40`) at width 4
only. -/
def specTypeTable : List (Nat × DataChar) :=
  ([1, 2, 4, 8].map (fun w => (w, DataChar.mk w false false))) ++
  ([1, 2, 4, 8].map (fun w => (0x80 + w, DataChar.mk w true false))) ++
  [(0x40 + 4, DataChar.mk 4 false true)]

/-- Claim C2: for every payload type byte, the type-table lookup on the
masked key `(pt & 0xC0) | (pt & 0x0F)` agrees with the documented
nine-entry table — it succeeds exactly when the masked key is one of the
nine documented keys, returning the documented width/signedness/class —
and in particular the float-class width-8 key `0x48` is absent, so such a
byte fails lookup (the reference's `KeyError`, the spec's
`UnknownPayloadType`). -/
theorem type_table_exact :
    (∀ pt : Fin 256,
      getDataChar pt.val = specTypeTable.lookup (maskedKey pt.val) ∧
      ((getDataChar pt.val).isSome ↔ maskedKey pt.val ∈ specTypeTable.map Prod.fst)) ∧
    getDataChar 0x48 = none := by
  set_option maxRecDepth 4096 in decide

end Harp

namespace Harp

/-! ## Facts about the type-table lookup -/

theorem maskedKey_and_SIZE_MASK (pt : Nat) :
    maskedKey pt &&& SIZE_MASK = pt &&& SIZE_MASK := by
  apply Nat.eq_of_testBit_eq
  intro i
  simp only [maskedKey, SIZE_MASK, Nat.testBit_and, Nat.testBit_or]
  cases pt.testBit i <;> cases Nat.testBit 192 i <;> cases Nat.testBit 15 i <;> rfl

/-- A successful lookup's width equals the low nibble of the payload type
byte (the divisor `to_list` uses), and is never zero. -/
theorem width_of_getDataChar (pt : Nat) (c : DataChar)
    (h : getDataChar pt = some c) : pt &&& SIZE_MASK = c.width ∧ c.width ≠ 0 := by
  rw [← maskedKey_and_SIZE_MASK]
  simp only [getDataChar, DATA_CHARS, List.lookup] at h
  repeat' split at h
  all_goals try (cases h)
  all_goals simp_all [SIZE_MASK]
  all_goals decide

/-! ## C10: zero width field -/

/-- Claim C10: a retained frame whose payload type byte has a zero low
nibble makes the element-count division divide by zero — the reference
raises `ZeroDivisionError` there, before the type-table lookup, so the
failure is `divByZero` (not `keyError`/`UnknownPayloadType`) and no
record is produced for the frame. -/
theorem zero_width_divides_by_zero (message : List Nat) (types : List Nat) (mt pt addr : Nat)
    (h0 : message[0]? = some mt) (hmem : mt ∈ types)
    (h2 : message[2]? = some addr) (h4 : message[4]? = some pt)
    (hz : pt &&& SIZE_MASK = 0) :
    processFrame message (some types) = .error .divByZero := by
  simp only [processFrame, pyIndex, h0, h2, h4]
  simp [hmem, hz]

/-- Witness for C10: payload type `0x40` (float class, width field 0) on a
retained event frame. -/
theorem zero_width_divides_by_zero_witness :
    (0x40 &&& SIZE_MASK = 0) ∧
    processFrame [3, 6, 5, 0, 0x40, 1, 2] (some [3]) = .error .divByZero :=
  ⟨by decide,
   zero_width_divides_by_zero [3, 6, 5, 0, 0x40, 1, 2] [3] 3 0x40 5
     rfl (by decide) rfl rfl (by decide)⟩

/-! ## C6: malformed payload -/

/-- Claim C6: a retained frame whose payload length, minus the 6-byte
timestamp area when the flag is set, is not an exact multiple of the
resolved element width fails to decode (the reference's `struct.error`,
the spec's `MalformedPayload`), and no record is emitted for it. -/
theorem malformed_payload_fails (message : List Nat) (types : List Nat) (mt pt addr : Nat)
    (c : DataChar)
    (h0 : message[0]? = some mt) (hmem : mt ∈ types)
    (h2 : message[2]? = some addr) (h4 : message[4]? = some pt)
    (hc : getDataChar pt = some c)
    (hdvd : ¬ ((c.width : Int) ∣ (((message.drop 5).length : Int) -
        (if pt &&& HAS_TIMESTAMP ≠ 0 then 6 else 0)))) :
    processFrame message (some types) = .error .structError := by
  obtain ⟨hw, hw0⟩ := width_of_getDataChar pt c hc
  have hz : ¬ (pt &&& SIZE_MASK = 0) := by rw [hw]; exact hw0
  simp only [processFrame, pyIndex, h0, h2, h4, hc]
  rw [if_pos hmem, if_neg hz]
  by_cases hts : pt &&& HAS_TIMESTAMP = 0
  · have hb : (pt &&& HAS_TIMESTAMP != 0) = false := by simp [hts]
    rw [if_neg (by simpa using hts)] at hdvd
    have hne : ∀ R : Nat, ¬ (message.length - 5 = c.width * R) := by
      intro R heq
      apply hdvd
      refine ⟨(R : Int), ?_⟩
      simp only [List.length_drop]
      push_cast [heq]
      ring
    simp [structUnpack, hb, hne]
  · have hb : (pt &&& HAS_TIMESTAMP != 0) = true := by simpa using hts
    rw [if_pos hts] at hdvd
    have hne : ∀ R : Nat, ¬ (message.length - 5 = 6 + c.width * R) := by
      intro R heq
      apply hdvd
      refine ⟨(R : Int), ?_⟩
      have hcast : ((message.drop 5).length : Int) = 6 + (c.width : Int) * (R : Int) := by
        simp only [List.length_drop]
        push_cast [heq]
        ring
      rw [hcast]
      ring
    simp [structUnpack, hb, hne]

/-- Witness for C6: a width-2 unsigned payload of 3 bytes. -/
theorem malformed_payload_fails_witness :
    ¬ ((2 : Int) ∣ ((3 : Int) - 0)) ∧
    processFrame [1, 4, 5, 0, 0x02, 9, 9, 9] (some [1, 2, 3]) = .error .structError :=
  ⟨by decide,
   malformed_payload_fails [1, 4, 5, 0, 0x02, 9, 9, 9] [1, 2, 3] 1 0x02 5
     ⟨2, false, false⟩ rfl (by decide) rfl rfl rfl (by decide)⟩

end Harp

namespace Harp

/-! ## C7: the end-to-end example frame -/

/-- Counterexample to claim C7 as stated: on the example buffer
`[0x01, 0x07, 0x05, 0x00, 0x01, 0x2A, 0x00, CHKSUM]` (here with
`CHKSUM = 0x33`) the decoded record's elements are
`[42, 0, CHKSUM]` — the two trailing bytes are unpacked too, since the
payload slice `frame[5:]` keeps them — not exactly `[42]`. -/
theorem example_frame_counterexample :
    to_list [1, 7, 5, 0, 1, 0x2A, 0, 0x33] true true true =
      .ok [⟨1, 5, none, [Value.int 42, Value.int 0, Value.int 51]⟩] ∧
    [Value.int 42, Value.int 0, Value.int 51] ≠ [Value.int 42] := by
  constructor
  · rw [to_list, toListLoop_step _ _ 0 7 (by norm_num) rfl,
        toListLoop_stop _ _ (0 + 7 + 1 + 1) (by norm_num)]
    rfl
  · decide

/-- Claim C7 amended: the single-frame buffer
`[0x01, 0x07, 0x05, 0x00, 0x01, 0x2A, 0x00, CHKSUM]` decodes, with all
three categories included, to exactly one record with message type 1,
address 5, the timestamp-unavailable sentinel, and elements
`[42, 0, CHKSUM]` (the byte at offset 6 and the trailing byte are
decoded as width-1 elements along with `0x2A`), for every value of the
trailing byte. -/
theorem example_frame_decodes (chk : Nat) :
    to_list [1, 7, 5, 0, 1, 0x2A, 0, chk] true true true =
      .ok [⟨1, 5, none, [Value.int 42, Value.int 0, Value.int chk]⟩] := by
  rw [to_list, toListLoop_step _ _ 0 7 (by norm_num) rfl,
      toListLoop_stop _ _ (0 + 7 + 1 + 1) (by norm_num)]
  have hslice : (List.take (0 + 7 + 1 - 0) (List.drop 0 ([1, 7, 5, 0, 1, 42, 0, chk] : List Nat)))
      = [1, 7, 5, 0, 1, 42, 0, chk] := rfl
  rw [hslice]
  have hpf : processFrame [1, 7, 5, 0, 1, 42, 0, chk]
        (unpackMessageTypesToProcess true true true)
      = .ok (some ⟨1, 5, none, [Value.int 42, Value.int 0, Value.int chk]⟩) := by
    simp only [processFrame, pyIndex]
    norm_num [HAS_TIMESTAMP, SIZE_MASK]
    rfl
  rw [hpf]

/-! ## C9: truncated frames -/

/-- Claim C9 is violated by the code: on the truncated buffer
`[0x01, 0x07, 0x05, 0x00, 0x01, 0x2A]` — whose length byte 7 puts
`frame_end = 8` and `next_start = 9` past the 6-byte buffer — the
reference does not fail at all: the Python slice silently truncates to
the available bytes and a record is emitted from the garbage frame. -/
theorem truncated_frame_silently_decoded :
    to_list [1, 7, 5, 0, 1, 0x2A] true true true =
      .ok [⟨1, 5, none, [Value.int 42]⟩] := by
  rw [to_list, toListLoop_step _ _ 0 7 (by norm_num) rfl,
      toListLoop_stop _ _ (0 + 7 + 1 + 1) (by norm_num)]
  rfl

end Harp

namespace Harp

/-! ## C4: the timestamp formula -/

/-- Little-endian encoding of `n` into `w` bytes (the inverse of
`leDecode`, used to build frames covering the full field ranges). -/
def leEncode : Nat → Nat → List Nat
  | 0, _ => []
  | w + 1, n => (n % 256) :: leEncode w (n / 256)

theorem leEncode_length (w n : Nat) : (leEncode w n).length = w := by
  induction w generalizing n with
  | zero => simp [leEncode]
  | succ w ih => simp [leEncode, ih]

theorem leDecode_cons (b : Nat) (bs : List Nat) :
    leDecode (b :: bs) = b + 256 * leDecode bs := rfl

theorem leDecode_leEncode (w n : Nat) (h : n < 2 ^ (8 * w)) :
    leDecode (leEncode w n) = n := by
  induction w generalizing n with
  | zero =>
    simp only [Nat.mul_zero, pow_zero, Nat.lt_one_iff] at h
    simp [h, leEncode, leDecode]
  | succ w ih =>
    have hdiv : n / 256 < 2 ^ (8 * w) := by
      have h8 : 8 * (w + 1) = 8 * w + 8 := by ring
      rw [h8, pow_add] at h
      have : (256 : Nat) = 2 ^ 8 := by norm_num
      rw [Nat.div_lt_iff_lt_mul (by norm_num : 0 < 256)]
      omega
    rw [leEncode, leDecode_cons, ih (n / 256) hdiv]
    omega

/-- Claim C4: for every retained frame with the timestamp flag set, the
emitted record's timestamp is exactly `seconds + ticks * 32e-6`, where
`seconds` is the 4-byte unsigned little-endian prefix of the payload and
`ticks` the following 2-byte unsigned value — for every `seconds` in the
full uint32 range and every `ticks` in the full uint16 range (frame built
here with payload type `0x11`: unsigned width 1, timestamp flag set, and
one data element after the 6-byte prefix). -/
theorem timestamp_formula (mt lenB addr port d : Nat) (types : List Nat) (s t : Nat)
    (hmem : mt ∈ types) (hs : s < 2 ^ 32) (ht : t < 2 ^ 16) :
    processFrame ([mt, lenB, addr, port, 0x11] ++ leEncode 4 s ++ leEncode 2 t ++ [d])
        (some types) =
      .ok (some ⟨mt, addr, some ((s : ℚ) + (t : ℚ) * MICROSECOND_TO_SECOND),
                 [Value.int d]⟩) := by
  have e4 : (leEncode 4 s).length = 4 := leEncode_length 4 s
  have e2 : (leEncode 2 t).length = 2 := leEncode_length 2 t
  have h0 : ([mt, lenB, addr, port, 0x11] ++ leEncode 4 s ++ leEncode 2 t ++ [d]
      : List Nat)[0]? = some mt := rfl
  have h2 : ([mt, lenB, addr, port, 0x11] ++ leEncode 4 s ++ leEncode 2 t ++ [d]
      : List Nat)[2]? = some addr := rfl
  have h4 : ([mt, lenB, addr, port, 0x11] ++ leEncode 4 s ++ leEncode 2 t ++ [d]
      : List Nat)[4]? = some 0x11 := rfl
  have hdrop : ([mt, lenB, addr, port, 0x11] ++ leEncode 4 s ++ leEncode 2 t ++ [d]
      : List Nat).drop 5 = leEncode 4 s ++ leEncode 2 t ++ [d] := by
    have h5 : ([mt, lenB, addr, port, 0x11] : List Nat).length = 5 := rfl
    rw [List.append_assoc, List.append_assoc, List.drop_left' h5, ← List.append_assoc]
  have hlen : (leEncode 4 s ++ leEncode 2 t ++ [d]).length = 7 := by
    simp [e4, e2]
  have htake4 : List.take 4 (leEncode 4 s ++ (leEncode 2 t ++ [d])) = leEncode 4 s :=
    List.take_left' e4
  have hdrop4 : List.drop 4 (leEncode 4 s ++ (leEncode 2 t ++ [d])) = leEncode 2 t ++ [d] :=
    List.drop_left' e4
  have htake2 : List.take 2 (leEncode 2 t ++ [d]) = leEncode 2 t :=
    List.take_left' e2
  have hdrop6 : List.drop 6 (leEncode 4 s ++ (leEncode 2 t ++ [d])) = [d] := by
    have h6 : (leEncode 4 s ++ leEncode 2 t).length = 6 := by simp [e4, e2]
    rw [← List.append_assoc, List.drop_left' h6]
  have hds : leDecode (leEncode 4 s) = s := leDecode_leEncode 4 s (by simpa using hs)
  have hdt : leDecode (leEncode 2 t) = t := leDecode_leEncode 2 t (by simpa using ht)
  have hrange : List.range 1 = [0] := rfl
  have hgdc : getDataChar 0x11 = some ⟨1, false, false⟩ := rfl
  have hand : ((0x11 : Nat) &&& 15) = 1 := rfl
  have hldz : leDecode [] = 0 := rfl
  simp only [processFrame, pyIndex, h0, h2, h4, hdrop]
  rw [if_pos hmem]
  have hz : ¬ ((0x11 : Nat) &&& SIZE_MASK = 0) := by decide
  rw [if_neg hz]
  have hb : (((0x11 : Nat) &&& HAS_TIMESTAMP != 0) : Bool) = true := rfl
  norm_num [hb, hlen, SIZE_MASK, Int.fdiv_one, Int.toNat_one, structUnpack, e4, e2,
    hrange, hgdc, hand, htake4, hdrop4, htake2, hdrop6, hds, hdt, unpackValue,
    leDecode_cons, hldz, valueToRat]


/-- Witness for C4 at `seconds = 4000000000`, `ticks = 65535`. -/
theorem timestamp_formula_witness :
    (3 ∈ [3] ∧ 4000000000 < 2 ^ 32 ∧ 65535 < 2 ^ 16) ∧
    processFrame ([3, 9, 7, 0, 0x11] ++ leEncode 4 4000000000 ++ leEncode 2 65535 ++ [5])
        (some [3]) =
      .ok (some ⟨3, 7,
            some (((4000000000 : Nat) : ℚ) + ((65535 : Nat) : ℚ) * MICROSECOND_TO_SECOND),
            [Value.int 5]⟩) :=
  ⟨⟨by decide, by norm_num, by norm_num⟩,
   timestamp_formula 3 9 7 0 5 [3] 4000000000 65535 (by decide) (by norm_num) (by norm_num)⟩

end Harp

namespace Harp

/-! ## C3: payload decoding layout -/

/-- The little-endian value of a byte list written as the specification
describes it: byte `i` contributes `byte * 256 ^ i`. -/
def specLE (bs : List Nat) : Nat :=
  ∑ i ∈ Finset.range bs.length, bs.getD i 0 * 256 ^ i

theorem leDecode_eq_specLE (bs : List Nat) : leDecode bs = specLE bs := by
  induction bs with
  | nil => rfl
  | cons b bs ih =>
    rw [leDecode_cons, ih, specLE, specLE]
    simp only [List.length_cons]
    rw [Finset.sum_range_succ']
    simp only [List.getD_cons_succ, List.getD_cons_zero, pow_zero, mul_one, pow_succ]
    rw [Finset.mul_sum]
    rw [Nat.add_comm]
    congr 1
    apply Finset.sum_congr rfl
    intro x _
    ring

def specValue (c : DataChar) (bs : List Nat) : Value :=
  if c.isFloat then .float32 (specLE bs)
  else if c.signed then .int (toSigned c.width (specLE bs))
  else .int (specLE bs)

theorem unpackValue_eq_specValue (c : DataChar) (bs : List Nat) :
    unpackValue c bs = specValue c bs := by
  simp [unpackValue, specValue, leDecode_eq_specLE]

end Harp

namespace Harp

/-- Claim C3: every record a retained frame produces is derived by
reading `message_type` from frame byte 0, `address` from byte 2, and
`payload_type` from byte 4; the payload is the whole remainder
`frame[5:]` (trailing byte included in the length arithmetic); bit 4 of
the payload type is the has-timestamp flag, giving a 6-byte prefix
(4-byte seconds then 2-byte ticks) when set and 0 bytes otherwise; and
the `n` elements are unpacked after that prefix, each as the
little-endian value `∑ byte_j * 256^j` of its `width`-byte slice (signed
or float reinterpretation per the type table). -/
theorem payload_decoder_layout (message : List Nat) (types : List Nat) (r : Record)
    (h : processFrame message (some types) = .ok (some r)) :
    ∃ mt addr pt c n,
      message[0]? = some mt ∧ message[2]? = some addr ∧ message[4]? = some pt ∧
      r.message_type = mt ∧ r.address = addr ∧
      getDataChar pt = some c ∧
      (message.drop 5).length =
        (if pt &&& HAS_TIMESTAMP ≠ 0 then 6 else 0) + c.width * n ∧
      r.elements = (List.range n).map (fun i =>
        specValue c (((message.drop 5).drop
          ((if pt &&& HAS_TIMESTAMP ≠ 0 then 6 else 0) + c.width * i)).take c.width)) ∧
      (pt &&& HAS_TIMESTAMP ≠ 0 →
        r.timestamp = some ((specLE ((message.drop 5).take 4) : ℚ) +
          (specLE (((message.drop 5).drop 4).take 2) : ℚ) * MICROSECOND_TO_SECOND)) ∧
      (pt &&& HAS_TIMESTAMP = 0 → r.timestamp = none) := by
  simp only [processFrame, pyIndex] at h
  cases hm0 : message[0]? with
  | none => simp [hm0] at h
  | some mt =>
  simp only [hm0] at h
  by_cases hmem : mt ∈ types
  case neg => simp [hmem] at h
  simp only [if_pos hmem] at h
  cases hm2 : message[2]? with
  | none => simp [hm2] at h
  | some addr =>
  simp only [hm2] at h
  cases hm4 : message[4]? with
  | none => simp [hm4] at h
  | some pt =>
  simp only [hm4] at h
  by_cases hz : pt &&& SIZE_MASK = 0
  case pos => simp [hz] at h
  simp only [if_neg hz] at h
  cases hc : getDataChar pt with
  | none => simp [hc] at h
  | some c =>
  simp only [hc] at h
  by_cases hts : pt &&& HAS_TIMESTAMP = 0
  · -- timestamp flag clear
    have hbne : (pt &&& HAS_TIMESTAMP != 0) = false := by simp [hts]
    have hts' : ¬ (pt &&& HAS_TIMESTAMP ≠ 0) := fun hh => hh hts
    split at h
    · simp at h
    · rename_i unpacked heq
      rw [if_neg (by simp [hbne])] at h
      simp only [Except.ok.injEq, Option.some.injEq] at h
      subst h
      rw [structUnpack] at heq
      simp only [hbne, Bool.false_eq_true, if_false, List.nil_append] at heq
      split at heq
      · rename_i hlen
        simp only [Except.ok.injEq] at heq
        subst heq
        refine ⟨mt, addr, pt, c,
          (Int.fdiv (((message.drop 5).length : Int) - 0) ((pt &&& SIZE_MASK : Nat) : Int)).toNat,
          rfl, rfl, rfl, rfl, rfl, hc, ?_, ?_, ?_, ?_⟩
        · rw [if_neg hts']
          exact hlen
        · rw [if_neg hts']
          apply List.map_congr_left
          intro i _
          rw [unpackValue_eq_specValue]
        · intro hcontra
          exact absurd hts hcontra
        · intro _
          rfl
      · simp at heq
  · -- timestamp flag set
    have hbne : (pt &&& HAS_TIMESTAMP != 0) = true := by simpa using hts
    split at h
    · simp at h
    · rename_i unpacked heq
      rw [if_pos (by simp [hbne])] at h
      rw [structUnpack] at heq
      simp only [hbne, if_true, List.cons_append, List.nil_append] at heq
      split at heq
      · rename_i hlen
        simp only [Except.ok.injEq] at heq
        subst heq
        simp only [List.getElem?_cons_zero, List.getElem?_cons_succ,
          List.drop_succ_cons, List.drop_zero, Except.ok.injEq, Option.some.injEq] at h
        subst h
        refine ⟨mt, addr, pt, c,
          (Int.fdiv (((message.drop 5).length : Int) - 6) ((pt &&& SIZE_MASK : Nat) : Int)).toNat,
          rfl, rfl, rfl, rfl, rfl, hc, ?_, ?_, ?_, ?_⟩
        · rw [if_pos hts]
          exact hlen
        · rw [if_pos hts]
          apply List.map_congr_left
          intro i _
          rw [unpackValue_eq_specValue]
        · intro _
          simp only [valueToRat, leDecode_eq_specLE]
          norm_cast
        · intro hcontra
          exact absurd hcontra hts
      · simp at heq


/-- Witness for C3 on a concrete timestamped frame. -/
theorem payload_decoder_layout_witness :
    processFrame ([3, 8, 9, 0, 0x11, 1, 0, 0, 0, 2, 0, 7] : List Nat) (some [3]) =
      .ok (some ⟨3, 9, some ((1 : ℚ) + (2 : ℚ) * MICROSECOND_TO_SECOND), [Value.int 7]⟩) ∧
    ∃ mt addr pt c n,
      ([3, 8, 9, 0, 0x11, 1, 0, 0, 0, 2, 0, 7] : List Nat)[0]? = some mt ∧
      ([3, 8, 9, 0, 0x11, 1, 0, 0, 0, 2, 0, 7] : List Nat)[2]? = some addr ∧
      ([3, 8, 9, 0, 0x11, 1, 0, 0, 0, 2, 0, 7] : List Nat)[4]? = some pt ∧
      (Record.mk 3 9 (some ((1 : ℚ) + (2 : ℚ) * MICROSECOND_TO_SECOND))
        [Value.int 7]).message_type = mt ∧
      (Record.mk 3 9 (some ((1 : ℚ) + (2 : ℚ) * MICROSECOND_TO_SECOND))
        [Value.int 7]).address = addr ∧
      getDataChar pt = some c ∧
      (([3, 8, 9, 0, 0x11, 1, 0, 0, 0, 2, 0, 7] : List Nat).drop 5).length =
        (if pt &&& HAS_TIMESTAMP ≠ 0 then 6 else 0) + c.width * n ∧
      (Record.mk 3 9 (some ((1 : ℚ) + (2 : ℚ) * MICROSECOND_TO_SECOND))
        [Value.int 7]).elements = (List.range n).map (fun i =>
        specValue c (((([3, 8, 9, 0, 0x11, 1, 0, 0, 0, 2, 0, 7] : List Nat).drop 5).drop
          ((if pt &&& HAS_TIMESTAMP ≠ 0 then 6 else 0) + c.width * i)).take c.width)) ∧
      (pt &&& HAS_TIMESTAMP ≠ 0 →
        (Record.mk 3 9 (some ((1 : ℚ) + (2 : ℚ) * MICROSECOND_TO_SECOND))
          [Value.int 7]).timestamp =
          some ((specLE ((([3, 8, 9, 0, 0x11, 1, 0, 0, 0, 2, 0, 7] : List Nat).drop 5).take 4) : ℚ) +
            (specLE (((([3, 8, 9, 0, 0x11, 1, 0, 0, 0, 2, 0, 7] : List Nat).drop 5).drop 4).take 2) : ℚ) *
              MICROSECOND_TO_SECOND)) ∧
      (pt &&& HAS_TIMESTAMP = 0 →
        (Record.mk 3 9 (some ((1 : ℚ) + (2 : ℚ) * MICROSECOND_TO_SECOND))
          [Value.int 7]).timestamp = none) :=
  ⟨by rfl,
   payload_decoder_layout [3, 8, 9, 0, 0x11, 1, 0, 0, 0, 2, 0, 7] [3]
     (Record.mk 3 9 (some ((1 : ℚ) + (2 : ℚ) * MICROSECOND_TO_SECOND)) [Value.int 7])
     (by rfl)⟩

end Harp

namespace Harp

/-! ## C5 and C1: frame scanning, filtering and order -/

theorem toListLoop_chunk (pre f : List Nat) (c : Nat) (rest : List Nat)
    (types : Option (List Nat))
    (hf : 2 ≤ f.length) (hL : f[1]? = some (f.length - 1)) :
    toListLoop (pre ++ f ++ c :: rest) types pre.length =
      match processFrame f types with
      | .error e => .error e
      | .ok none => toListLoop (pre ++ f ++ c :: rest) types (pre.length + f.length + 1)
      | .ok (some r) =>
        match toListLoop (pre ++ f ++ c :: rest) types (pre.length + f.length + 1) with
        | .error e => .error e
        | .ok rest2 => .ok (r :: rest2) := by
  have hlen : (pre ++ f ++ c :: rest).length = pre.length + f.length + 1 + rest.length := by
    simp [List.length_append]
    omega
  have hns : pre.length < (pre ++ f ++ c :: rest).length := by omega
  have hL' : (pre ++ f ++ c :: rest)[pre.length + 1]? = some (f.length - 1) := by
    rw [List.append_assoc, List.getElem?_append_right (by omega : pre.length ≤ pre.length + 1)]
    have : pre.length + 1 - pre.length = 1 := by omega
    rw [this, List.getElem?_append_left (by omega : 1 < f.length)]
    exact hL
  rw [toListLoop_step _ _ pre.length (f.length - 1) hns hL']
  have harith1 : pre.length + (f.length - 1) + 1 - pre.length = f.length := by omega
  have harith2 : pre.length + (f.length - 1) + 1 + 1 = pre.length + f.length + 1 := by omega
  rw [harith1, harith2]
  have hslice : (List.drop pre.length (pre ++ f ++ c :: rest)).take f.length = f := by
    rw [List.append_assoc, List.drop_left' rfl, List.take_left' rfl]
  rw [hslice]


/-- Claim C5: in a buffer holding one well-formed frame of each message
type 1, 2, 3 (each frame slice followed by one skipped byte), decoding
with the write category excluded and read and event included yields
exactly the type-1 and type-3 records, in buffer order, and no type-2
record: records preserve the frame order of the input with no reordering
or deduplication. -/
theorem write_filter_order (f1 f2 f3 : List Nat) (c1 c2 c3 : Nat) (r1 r3 : Record)
    (h1f : 2 ≤ f1.length) (h1L : f1[1]? = some (f1.length - 1))
    (h2f : 2 ≤ f2.length) (h2L : f2[1]? = some (f2.length - 1))
    (h3f : 2 ≤ f3.length) (h3L : f3[1]? = some (f3.length - 1))
    (h2t : f2[0]? = some 2)
    (hr1 : processFrame f1 (some [1, 3]) = .ok (some r1))
    (hr3 : processFrame f3 (some [1, 3]) = .ok (some r3)) :
    to_list (f1 ++ (c1 :: (f2 ++ (c2 :: (f3 ++ [c3]))))) true false true = .ok [r1, r3] := by
  have htypes : unpackMessageTypesToProcess true false true = some [1, 3] := rfl
  have hskip : processFrame f2 (some [1, 3]) = .ok none := by
    simp only [processFrame, pyIndex, h2t]
    norm_num
  have s1 := toListLoop_chunk [] f1 c1 (f2 ++ (c2 :: (f3 ++ [c3]))) (some [1, 3]) h1f h1L
  simp only [List.nil_append, List.length_nil, Nat.zero_add] at s1
  have s2 := toListLoop_chunk (f1 ++ [c1]) f2 c2 (f3 ++ [c3]) (some [1, 3]) h2f h2L
  simp only [List.append_assoc, List.cons_append, List.nil_append,
    List.length_append, List.length_cons, List.length_nil, Nat.zero_add] at s2
  have s3 := toListLoop_chunk ((f1 ++ [c1]) ++ (f2 ++ [c2])) f3 c3 [] (some [1, 3]) h3f h3L
  simp only [List.append_assoc, List.cons_append, List.nil_append,
    List.length_append, List.length_cons, List.length_nil, Nat.zero_add] at s3
  rw [show f1.length + (f2.length + 1 + 1) = f1.length + 1 + f2.length + 1 from by ring] at s3
  rw [to_list, htypes, s1, hr1, s2, hskip, s3, hr3,
      toListLoop_stop _ _ (f1.length + 1 + f2.length + 1 + f3.length + 1)
        (by simp [List.length_append]; omega)]


/-- Witness for C5 on three concrete frames. -/
theorem write_filter_order_witness :
    processFrame [1, 6, 5, 0, 1, 42, 99] (some [1, 3]) =
      .ok (some ⟨1, 5, none, [Value.int 42, Value.int 99]⟩) ∧
    processFrame [3, 6, 8, 0, 1, 7, 13] (some [1, 3]) =
      .ok (some ⟨3, 8, none, [Value.int 7, Value.int 13]⟩) ∧
    to_list (([1, 6, 5, 0, 1, 42, 99] : List Nat) ++
        (0 :: (([2, 6, 1, 0, 1, 1, 1] : List Nat) ++
          (0 :: (([3, 6, 8, 0, 1, 7, 13] : List Nat) ++ [0]))))) true false true =
      .ok [⟨1, 5, none, [Value.int 42, Value.int 99]⟩,
           ⟨3, 8, none, [Value.int 7, Value.int 13]⟩] :=
  ⟨rfl, rfl,
   write_filter_order [1, 6, 5, 0, 1, 42, 99] [2, 6, 1, 0, 1, 1, 1] [3, 6, 8, 0, 1, 7, 13]
     0 0 0 _ _ (by norm_num) rfl (by norm_num) rfl (by norm_num) rfl rfl rfl rfl⟩

/-- Claim C1: `to_list` scans frames by the deterministic recurrence —
the cursor starts at 0; with `frame_start = next_start` and
`frame_end = frame_start + buffer[frame_start + 1] + 1` the processed
frame is exactly the slice `[frame_start, frame_end)` (here
`(data.drop frame_start).take (frame_end - frame_start)`), the cursor
advances to `frame_end + 1` (strictly increasing, so frames come in
increasing offset order), and scanning stops exactly when
`next_start ≥ buffer length`, yielding `[]`. -/
theorem frame_scan_recurrence (data : List Nat) (types : Option (List Nat))
    (next_start L : Nat) :
    (∀ processRead processWrite processEvent,
      to_list data processRead processWrite processEvent =
        toListLoop data (unpackMessageTypesToProcess processRead processWrite processEvent) 0) ∧
    (data.length ≤ next_start → toListLoop data types next_start = .ok []) ∧
    (next_start < next_start + L + 1 + 1) ∧
    (next_start < data.length → data[next_start + 1]? = some L →
      toListLoop data types next_start =
        match processFrame ((data.drop next_start).take (next_start + L + 1 - next_start))
            types with
        | .error e => .error e
        | .ok none => toListLoop data types (next_start + L + 1 + 1)
        | .ok (some r) =>
          match toListLoop data types (next_start + L + 1 + 1) with
          | .error e => .error e
          | .ok rest => .ok (r :: rest)) :=
  ⟨fun _ _ _ => rfl, toListLoop_stop data types next_start, by omega,
   fun h hL => toListLoop_step data types next_start L h hL⟩

/-- Witness for C1 on the example buffer, at both a scan step and the
termination point. -/
theorem frame_scan_recurrence_witness :
    toListLoop [1, 7, 5, 0, 1, 42, 0, 51] (some [1, 2, 3]) 8 = .ok [] ∧
    toListLoop [1, 7, 5, 0, 1, 42, 0, 51] (some [1, 2, 3]) 0 =
      (match processFrame ((([1, 7, 5, 0, 1, 42, 0, 51] : List Nat).drop 0).take (0 + 7 + 1 - 0))
          (some [1, 2, 3]) with
       | .error e => .error e
       | .ok none => toListLoop [1, 7, 5, 0, 1, 42, 0, 51] (some [1, 2, 3]) (0 + 7 + 1 + 1)
       | .ok (some r) =>
         match toListLoop [1, 7, 5, 0, 1, 42, 0, 51] (some [1, 2, 3]) (0 + 7 + 1 + 1) with
         | .error e => .error e
         | .ok rest => .ok (r :: rest)) :=
  ⟨(frame_scan_recurrence [1, 7, 5, 0, 1, 42, 0, 51] (some [1, 2, 3]) 8 0).2.1 (by norm_num),
   (frame_scan_recurrence [1, 7, 5, 0, 1, 42, 0, 51] (some [1, 2, 3]) 0 7).2.2.2
     (by norm_num) rfl⟩

end Harp
